import Mathlib

/-!
Shallow embedding of the Todo HTTP service (entity `Todo` in
`src/models/Todo.ts`, controller `TodoController` in
`src/controllers/TodoController.ts`).

Modelling choices:
* Timestamps are `Nat` (an abstract UTC instant); `createUTCDate()` becomes an
  explicit `now : Nat` argument threaded through the handlers.
* A database row is a `TodoProps` record.  `title` and `description` are
  `Option String` because at runtime the request body may lack them even
  though the TypeScript interface declares them required.
* Database effects cannot be embedded purely, so each handler takes the
  outcome of its storage call(s) as an `Except String _` parameter (the
  `error` case models the promise rejecting / the driver throwing).
* A handler run is a `List Event`: the storage calls it makes, the
  `console.error` logs, and the responses it sends, in program order.
  JavaScript truthiness of strings ("" is falsy) is modelled explicitly
  wherever the source branches on a possibly-empty string.
-/

/-- One row of the `todos` table / the `TodoProps` interface. -/
structure TodoProps where
  id : Option Nat := none
  title : Option String := none
  description : Option String := none
  status : String := "incomplete"
  dueAt : Option Nat := none
  createdAt : Option Nat := none
  completedAt : Option Nat := none
  editedAt : Option Nat := none
deriving DecidableEq, Repr

/-- Payload of a response envelope. -/
inductive Payload where
  | todos (l : List TodoProps)
  | todo (t : TodoProps)
deriving DecidableEq, Repr

/-- The `{statusCode, message, payload?}` envelope sent by `Response.send`. -/
structure HttpResponse where
  statusCode : Nat
  message : String
  payload : Option Payload := none
deriving DecidableEq, Repr

/-- Observable steps of one handler invocation, in program order. -/
inductive Event where
  | dbReadAll
  | dbRead
  | dbInsert
  | dbUpdate
  | dbDelete
  | log
  | sent (r : HttpResponse)
deriving DecidableEq, Repr

def Event.isDbCall : Event → Bool
  | .dbReadAll | .dbRead | .dbInsert | .dbUpdate | .dbDelete => true
  | _ => false

def Event.isSent : Event → Bool
  | .sent _ => true
  | _ => false

/-- The status codes of the responses sent during a run, in order. -/
def sentCodes (evs : List Event) : List Nat :=
  evs.filterMap fun e => match e with
    | .sent r => some r.statusCode
    | _ => none

/-! ## Entity layer (`src/models/Todo.ts`) -/

/-- The `ORDER BY` column resolved by `getSortBy` inside `Todo.readAll`. -/
inductive SortCol where
  | id | title | description | status | dueAt | createdAt | completedAt | editedAt
deriving DecidableEq, Repr

/-- `getSortBy` (local to `Todo.readAll`): whitelist switch, default `id`. -/
def getSortBy (sortBy : String) : SortCol :=
  match sortBy with
  | "title" => .title
  | "description" => .description
  | "status" => .status
  | "dueAt" => .dueAt
  | "createdAt" => .createdAt
  | "completedAt" => .completedAt
  | "editedAt" => .editedAt
  | _ => .id

inductive Direction where
  | asc | desc
deriving DecidableEq, Repr

/-- `getOrderBy` (local to `Todo.readAll`): `orderBy === "asc" ? ASC : DESC`. -/
def getOrderBy (orderBy : String) : Direction :=
  if orderBy = "asc" then .asc else .desc

/-- `≤` on `Option Nat` used to give SQL `ORDER BY` a concrete semantics:
`NULL` sorts first, present values by `≤`. -/
def optNatLe : Option Nat → Option Nat → Bool
  | none, _ => true
  | some _, none => false
  | some a, some b => a ≤ b

/-- `≤` on `Option String`, `NULL` first. -/
def optStrLe : Option String → Option String → Bool
  | none, _ => true
  | some _, none => false
  | some a, some b => a ≤ b

/-- Row comparison on the resolved sort column. -/
def colLe (c : SortCol) (a b : TodoProps) : Bool :=
  match c with
  | .id => optNatLe a.id b.id
  | .title => optStrLe a.title b.title
  | .description => optStrLe a.description b.description
  | .status => a.status ≤ b.status
  | .dueAt => optNatLe a.dueAt b.dueAt
  | .createdAt => optNatLe a.createdAt b.createdAt
  | .completedAt => optNatLe a.completedAt b.completedAt
  | .editedAt => optNatLe a.editedAt b.editedAt

/-- Ascending order on a sort column, as a relation. -/
def colRelAsc (c : SortCol) (a b : TodoProps) : Prop := colLe c a b = true

/-- Descending order on a sort column (the flip of `colRelAsc`). -/
def colRelDesc (c : SortCol) (a b : TodoProps) : Prop := colLe c b a = true

instance (c : SortCol) : DecidableRel (colRelAsc c) := fun a b =>
  inferInstanceAs (Decidable (colLe c a b = true))

instance (c : SortCol) : DecidableRel (colRelDesc c) := fun a b =>
  inferInstanceAs (Decidable (colLe c b a = true))

namespace Todo

/-- `Todo.readAll`: `SELECT * FROM todos`, optional `WHERE status = _`
(only when the filter value is truthy), optional `ORDER BY` (only when
`sortBy` is truthy), direction appended only when `orderBy` is truthy
(SQL defaults a bare `ORDER BY col` to ascending).  The database is the
list `db`; the `ORDER BY` semantics is a stable sort by `colLe`. -/
def readAll (db : List TodoProps) (statusFilter : Option String)
    (sortBy orderBy : String) : List TodoProps :=
  let rows := match statusFilter with
    | none => db
    | some s => if s = "" then db else db.filter fun r => r.status == s
  if sortBy = "" then rows
  else
    match (if orderBy = "" then Direction.asc else getOrderBy orderBy) with
    | .asc => List.insertionSort (colRelAsc (getSortBy sortBy)) rows
    | .desc => List.insertionSort (colRelDesc (getSortBy sortBy)) rows

/-- `Todo.create` happy path: fills `createdAt` with the current time when
absent, inserts, and wraps the returned row (the inserted values plus the
generated `id`). -/
def create (props : TodoProps) (now : Nat) (assignedId : Nat) : TodoProps :=
  { props with createdAt := some (props.createdAt.getD now), id := some assignedId }

/-- `Todo.delete`: `result.count === 1`. -/
def delete (affectedCount : Nat) : Bool := affectedCount == 1

end Todo

/-- A `Partial<TodoProps>` update mapping: a field is `some _` exactly when
the corresponding key is present. -/
structure UpdateProps where
  title : Option String := none
  description : Option String := none
  status : Option String := none
  dueAt : Option Nat := none
  completedAt : Option Nat := none
deriving DecidableEq, Repr

namespace Todo

/-- `Todo.update` happy path: `UPDATE ... SET <present keys>, edited_at = now
RETURNING *`, then merge the returned row over the in-memory props. -/
def update (p : TodoProps) (u : UpdateProps) (now : Nat) : TodoProps :=
  { p with
    title := u.title.or p.title
    description := u.description.or p.description
    status := u.status.getD p.status
    dueAt := u.dueAt.or p.dueAt
    completedAt := u.completedAt.or p.completedAt
    editedAt := some now }

/-- `Todo.markComplete`: `update` with `status="complete"` and
`completedAt` = current UTC time. -/
def markComplete (p : TodoProps) (now : Nat) : TodoProps :=
  update p { status := some "complete", completedAt := some now } now

end Todo

/-! ## Controller layer (`src/controllers/TodoController.ts`) -/

/-- `isSortByValid`, verbatim from the controller. -/
def isSortByValid (sortBy : String) : Bool :=
  sortBy == "id" ||
  sortBy == "title" ||
  sortBy == "description" ||
  sortBy == "dueAt" ||
  sortBy == "createdAt" ||
  sortBy == "updatedAt"

/-- `isOrderByValid`, verbatim from the controller. -/
def isOrderByValid (orderBy : String) : Bool :=
  orderBy == "asc" || orderBy == "desc"

/-- The condition of the first guard of `getTodoList`:
`statusFilter && statusFilter !== "incomplete" && statusFilter !== "complete"`
(a missing or empty string is falsy). -/
def statusFilterInvalid (statusQ : Option String) : Bool :=
  match statusQ with
  | none => false
  | some s => s != "" && s != "incomplete" && s != "complete"

/-- The condition of the second guard of `getTodoList`:
`sortBy && !isSortByValid(sortBy)` where `sortBy = q.get("sortBy") ?? "id"`. -/
def sortByInvalid (sortByQ : Option String) : Bool :=
  let sortBy := sortByQ.getD "id"
  sortBy != "" && !isSortByValid sortBy

/-- The condition of the third guard of `getTodoList`:
`orderBy && !isOrderByValid(orderBy)` where `orderBy = q.get("orderBy") ?? "asc"`. -/
def orderByInvalid (orderByQ : Option String) : Bool :=
  let orderBy := orderByQ.getD "asc"
  orderBy != "" && !isOrderByValid orderBy

/-- `getTodoList`.  `readAllOutcome` is the storage call's outcome; on a
throw the catch block sends a 500 but does not return, so execution falls
through to the final 200 send with `todos` still the empty array. -/
def getTodoList (statusQ sortByQ orderByQ : Option String)
    (readAllOutcome : Except String (List TodoProps)) : List Event :=
  if statusFilterInvalid statusQ then
    [.sent { statusCode := 400, message := "Invalid filter parameter." }]
  else if sortByInvalid sortByQ then
    [.sent { statusCode := 400, message := "Invalid sortBy parameter." }]
  else if orderByInvalid orderByQ then
    [.sent { statusCode := 400, message := "Invalid orderBy parameter." }]
  else
    match readAllOutcome with
    | .error e =>
        [.dbReadAll, .log,
         .sent { statusCode := 500,
                 message := "Error while getting todo list: " ++ e },
         .sent { statusCode := 200, message := "Todo list retrieved",
                 payload := some (.todos []) }]
    | .ok todos =>
        [.dbReadAll,
         .sent { statusCode := 200, message := "Todo list retrieved",
                 payload := some (.todos todos) }]

/-- `getTodo`.  `idParam = none` models `isNaN(req.getId())`.  On a read
throw the catch sends a 500 and falls through; `todo` is still `null`, so
the 404 branch also sends. -/
def getTodo (idParam : Option Nat)
    (readOutcome : Except String (Option TodoProps)) : List Event :=
  match idParam with
  | none => [.sent { statusCode := 400, message := "Invalid ID" }]
  | some _ =>
    match readOutcome with
    | .error e =>
        [.dbRead, .log,
         .sent { statusCode := 500,
                 message := "Error while getting todo list: " ++ e },
         .sent { statusCode := 404, message := "Not found" }]
    | .ok none =>
        [.dbRead, .sent { statusCode := 404, message := "Not found" }]
    | .ok (some t) =>
        [.dbRead,
         .sent { statusCode := 200, message := "Todo retrieved",
                 payload := some (.todo t) }]

/-- A parsed request body.  A field is `some _` exactly when the key is
present; `dueAt` carries the already-parsed timestamp. -/
structure RequestBody where
  title : Option String := none
  description : Option String := none
  dueAt : Option Nat := none
deriving DecidableEq, Repr

/-- `isValidTodoProps`, verbatim from the controller: both keys present with
string values.  (Defined by the controller but invoked by no handler.) -/
def isValidTodoProps (body : RequestBody) : Bool :=
  body.title.isSome && body.description.isSome

/-- The `todoProps` literal built by `createTodo`: body fields passed through
unvalidated, `status` forced to `"incomplete"`, `createdAt` stamped with the
current time, `dueAt` only when truthy in the body. -/
def createTodoProps (body : RequestBody) (now : Nat) : TodoProps :=
  { title := body.title
    description := body.description
    status := "incomplete"
    createdAt := some now
    dueAt := body.dueAt }

/-- The entity `Todo.create` returns on `createTodo`'s happy path. -/
def createdTodo (body : RequestBody) (now : Nat) (assignedId : Nat) : TodoProps :=
  Todo.create (createTodoProps body now) now assignedId

/-- `createTodo`: no body validation; insert; on a throw log and send 500,
otherwise send 201 with the created entity's props. -/
def createTodo (body : RequestBody) (now : Nat)
    (insertOutcome : Except String Unit) (assignedId : Nat) : List Event :=
  match insertOutcome with
  | .error _ =>
      [.dbInsert, .log,
       .sent { statusCode := 500, message := "Error while creating todo" }]
  | .ok _ =>
      [.dbInsert,
       .sent { statusCode := 201, message := "Todo created successfully!",
               payload := some (.todo (createdTodo body now assignedId)) }]

/-- The `Partial<TodoProps>` built by `updateTodo`: each body field is copied
only when truthy (`if (req.body.title) ...`). -/
def updatePropsOfBody (body : RequestBody) : UpdateProps :=
  { title := match body.title with
      | some s => if s = "" then none else some s
      | none => none
    description := match body.description with
      | some s => if s = "" then none else some s
      | none => none
    dueAt := body.dueAt }

/-- `updateTodo`.  The whole read/update/send sequence sits in one `try`;
the `catch` only logs, so a throw in `read` (or in `update`) ends the
handler with no response sent. -/
def updateTodo (idParam : Option Nat) (body : RequestBody)
    (readOutcome : Except String (Option TodoProps))
    (updateOutcome : Except String Unit) (now : Nat) : List Event :=
  match idParam with
  | none => [.sent { statusCode := 400, message := "Invalid ID" }]
  | some _ =>
    match readOutcome with
    | .error _ => [.dbRead, .log]
    | .ok none =>
        [.dbRead, .sent { statusCode := 404, message := "Not found" }]
    | .ok (some t) =>
        match updateOutcome with
        | .error _ => [.dbRead, .dbUpdate, .log]
        | .ok _ =>
            [.dbRead, .dbUpdate,
             .sent { statusCode := 200, message := "Todo updated successfully!",
                     payload := some (.todo (Todo.update t (updatePropsOfBody body) now)) }]

/-- `deleteTodo`.  Same single `try` shape: a throw in `read` (or in
`delete`) is only logged.  A successful delete call yields the affected-row
count; the controller branches on `todo.delete()` returning true/false. -/
def deleteTodo (idParam : Option Nat)
    (readOutcome : Except String (Option TodoProps))
    (deleteOutcome : Except String Nat) : List Event :=
  match idParam with
  | none => [.sent { statusCode := 400, message := "Invalid ID" }]
  | some _ =>
    match readOutcome with
    | .error _ => [.dbRead, .log]
    | .ok none =>
        [.dbRead, .sent { statusCode := 404, message := "Not found" }]
    | .ok (some t) =>
        match deleteOutcome with
        | .error _ => [.dbRead, .dbDelete, .log]
        | .ok count =>
            if Todo.delete count then
              [.dbRead, .dbDelete,
               .sent { statusCode := 200, message := "Todo deleted successfully!",
                       payload := some (.todo t) }]
            else
              [.dbRead, .dbDelete,
               .sent { statusCode := 500, message := "Error while deleting todo." }]

/-- `completeTodo`.  Same single `try` shape: a throw in `read` (or in
`markComplete`) is only logged. -/
def completeTodo (idParam : Option Nat)
    (readOutcome : Except String (Option TodoProps))
    (updateOutcome : Except String Unit) (now : Nat) : List Event :=
  match idParam with
  | none => [.sent { statusCode := 400, message := "Invalid ID" }]
  | some _ =>
    match readOutcome with
    | .error _ => [.dbRead, .log]
    | .ok none =>
        [.dbRead, .sent { statusCode := 404, message := "Not found" }]
    | .ok (some t) =>
        match updateOutcome with
        | .error _ => [.dbRead, .dbUpdate, .log]
        | .ok _ =>
            [.dbRead, .dbUpdate,
             .sent { statusCode := 200, message := "Todo marked as complete!",
                     payload := some (.todo (Todo.markComplete t now)) }]

/-! ## Case converter utility

The repository imports `camelToSnake`, `snakeToCamel`, `convertToCase` and
`createUTCDate` from `../utils`, a module whose source is not part of the
two files above; the definitions below are therefore reconstructed from the
specification of the case converter. -/

/-- ASCII lowercase letter test. -/
def isLowerChar (c : Char) : Bool := 97 ≤ c.toNat && c.toNat ≤ 122

/-- ASCII uppercase letter test. -/
def isUpperChar (c : Char) : Bool := 65 ≤ c.toNat && c.toNat ≤ 90

/-- ASCII lowercase → uppercase shift. -/
def toUpperChar (c : Char) : Char :=
  if isLowerChar c then Char.ofNat (c.toNat - 32) else c

/-- ASCII uppercase → lowercase shift. -/
def toLowerChar (c : Char) : Char :=
  if isUpperChar c then Char.ofNat (c.toNat + 32) else c

/-- Modelled from the spec: `camelToSnake` from the missing `utils` module —
split a camelCase key on each uppercase boundary and rejoin with `_`,
lowercasing the boundary character. -/
def camelToSnakeChars : List Char → List Char
  | [] => []
  | c :: cs =>
    if isUpperChar c then '_' :: toLowerChar c :: camelToSnakeChars cs
    else c :: camelToSnakeChars cs

/-- Modelled from the spec: `snakeToCamel` from the missing `utils` module —
split a snake_case key on `_` and rejoin, uppercasing each character that
followed an `_`. -/
def snakeToCamelChars : List Char → List Char
  | [] => []
  | c :: cs =>
    if c = '_' then
      match cs with
      | [] => []
      | d :: ds => toUpperChar d :: snakeToCamelChars ds
    else c :: snakeToCamelChars cs

/-- Modelled from the spec: string-level `camelToSnake`. -/
def camelToSnake (s : String) : String := ⟨camelToSnakeChars s.data⟩

/-- Modelled from the spec: string-level `snakeToCamel`. -/
def snakeToCamel (s : String) : String := ⟨snakeToCamelChars s.data⟩

/-- Modelled from the spec: `convertToCase` — transform every key of a
mapping with the given per-key transform, values untouched.  A mapping is
an association list of key/value pairs. -/
def convertToCase (f : String → String) (m : List (String × String)) :
    List (String × String) :=
  m.map fun kv => (f kv.1, kv.2)

/-- A word: a nonempty run of lowercase ASCII letters. -/
def WordOK (w : List Char) : Prop := w ≠ [] ∧ ∀ c ∈ w, isLowerChar c = true

instance (w : List Char) : Decidable (WordOK w) := by
  unfold WordOK; infer_instance

/-- Uppercase the first character of a word. -/
def capitalizeWord : List Char → List Char
  | [] => []
  | c :: cs => toUpperChar c :: cs

/-- The non-leading part of a camelCase compound key. -/
def camelTail : List (List Char) → List Char
  | [] => []
  | w :: ws => capitalizeWord w ++ camelTail ws

/-- The camelCase compound key formed from a list of words. -/
def camelKey : List (List Char) → List Char
  | [] => []
  | w :: ws => w ++ camelTail ws

/-- The non-leading part of a snake_case compound key. -/
def snakeTail : List (List Char) → List Char
  | [] => []
  | w :: ws => '_' :: (w ++ snakeTail ws)

/-- The snake_case compound key formed from a list of words. -/
def snakeKey : List (List Char) → List Char
  | [] => []
  | w :: ws => w ++ snakeTail ws

/-- A string is a camelCase compound of lowercase ASCII words. -/
def CamelKeyOK (s : String) : Prop :=
  ∃ ws : List (List Char), (∀ w ∈ ws, WordOK w) ∧ s.data = camelKey ws

/-- A string is a snake_case compound of lowercase ASCII words. -/
def SnakeKeyOK (s : String) : Prop :=
  ∃ ws : List (List Char), (∀ w ∈ ws, WordOK w) ∧ s.data = snakeKey ws

/-! ## Order facts for the `ORDER BY` semantics -/

theorem optNatLe_total (a b : Option Nat) : optNatLe a b = true ∨ optNatLe b a = true := by
  cases a <;> cases b <;> simp [optNatLe] <;> omega

theorem optNatLe_trans {a b c : Option Nat} (h₁ : optNatLe a b = true)
    (h₂ : optNatLe b c = true) : optNatLe a c = true := by
  cases a <;> cases b <;> cases c <;> simp_all [optNatLe] <;> omega

theorem optStrLe_total (a b : Option String) : optStrLe a b = true ∨ optStrLe b a = true := by
  cases a <;> cases b <;> simp [optStrLe]
  exact le_total ..

theorem optStrLe_trans {a b c : Option String} (h₁ : optStrLe a b = true)
    (h₂ : optStrLe b c = true) : optStrLe a c = true := by
  cases a <;> cases b <;> cases c <;> simp_all [optStrLe]
  exact le_trans h₁ h₂

instance (c : SortCol) : IsTotal TodoProps (colRelAsc c) := by
  constructor
  intro a b
  cases c <;>
    simp only [colRelAsc, colLe] <;>
    first
      | exact optNatLe_total ..
      | exact optStrLe_total ..
      | simpa using le_total a.status b.status

instance (c : SortCol) : IsTrans TodoProps (colRelAsc c) := by
  constructor
  intro a b d h₁ h₂
  cases c <;>
    simp only [colRelAsc, colLe] at * <;>
    first
      | exact optNatLe_trans h₁ h₂
      | exact optStrLe_trans h₁ h₂
      | (simp_all; exact le_trans h₁ h₂)

instance (c : SortCol) : IsTotal TodoProps (colRelDesc c) := by
  constructor
  intro a b
  exact (IsTotal.total (r := colRelAsc c) b a).imp id id

instance (c : SortCol) : IsTrans TodoProps (colRelDesc c) := by
  constructor
  intro a b d h₁ h₂
  exact IsTrans.trans (r := colRelAsc c) d b a h₂ h₁

/-! ## Claims -/

/-- Claim C1 (code bug): the spec's sortBy whitelist — the columns
`getSortBy` in `Todo.readAll` actually supports — is `title`, `description`,
`status`, `dueAt`, `createdAt`, `completedAt`, `editedAt` plus the default
`id`, but the controller's `isSortByValid` rejects `status`, `completedAt`
and `editedAt` (so `GET /todos?sortBy=status` gets a 400 with no storage
call) while accepting `updatedAt`, a name that is no column at all and that
`getSortBy` silently resolves to `id`. -/
theorem c1_sortBy_whitelist_codebug :
    isSortByValid "status" = false ∧
    isSortByValid "completedAt" = false ∧
    isSortByValid "editedAt" = false ∧
    isSortByValid "updatedAt" = true ∧
    getSortBy "updatedAt" = SortCol.id ∧
    getTodoList none (some "status") none (.ok []) =
      [.sent { statusCode := 400, message := "Invalid sortBy parameter." }] ∧
    (getTodoList none (some "updatedAt") none (.ok [])).filter (·.isDbCall) =
      [.dbReadAll] := by
  refine ⟨rfl, rfl, rfl, rfl, rfl, ?_, ?_⟩ <;> decide

/-- Claim C2: in `updateTodo`, `deleteTodo` and `completeTodo`, when the
initial `Todo.read` throws, the handler logs the error and sends no
response at all. -/
theorem c2_read_throw_silent (n : Nat) (body : RequestBody) (e₁ e₂ e₃ : String)
    (uo co : Except String Unit) (d : Except String Nat) (now now' : Nat) :
    updateTodo (some n) body (.error e₁) uo now = [.dbRead, .log] ∧
    deleteTodo (some n) (.error e₂) d = [.dbRead, .log] ∧
    completeTodo (some n) (.error e₃) co now' = [.dbRead, .log] :=
  ⟨rfl, rfl, rfl⟩

/-- Claim C3: when `Todo.readAll` throws inside `getTodoList` (with the
query parameters passing validation), a 500 is sent and then, the catch
block not returning, a 200 with an empty todos list; when `Todo.read`
throws inside `getTodo`, a 500 is sent and then a 404 — two sends for one
request in both handlers. -/
theorem c3_storage_error_double_send (sq bq oq : Option String) (e : String)
    (n : Nat) (e' : String) (h₁ : statusFilterInvalid sq = false)
    (h₂ : sortByInvalid bq = false) (h₃ : orderByInvalid oq = false) :
    getTodoList sq bq oq (.error e) =
      [.dbReadAll, .log,
       .sent { statusCode := 500,
               message := "Error while getting todo list: " ++ e },
       .sent { statusCode := 200, message := "Todo list retrieved",
               payload := some (.todos []) }] ∧
    getTodo (some n) (.error e') =
      [.dbRead, .log,
       .sent { statusCode := 500,
               message := "Error while getting todo list: " ++ e' },
       .sent { statusCode := 404, message := "Not found" }] := by
  constructor
  · simp [getTodoList, h₁, h₂, h₃]
  · rfl

/-- Witness for C3 at concrete inputs. -/
theorem c3_storage_error_double_send_witness :
    getTodoList none none none (.error "boom") =
      [.dbReadAll, .log,
       .sent { statusCode := 500,
               message := "Error while getting todo list: " ++ "boom" },
       .sent { statusCode := 200, message := "Todo list retrieved",
               payload := some (.todos []) }] ∧
    getTodo (some 1) (.error "boom") =
      [.dbRead, .log,
       .sent { statusCode := 500,
               message := "Error while getting todo list: " ++ "boom" },
       .sent { statusCode := 404, message := "Not found" }] :=
  c3_storage_error_double_send none none none "boom" 1 "boom" rfl rfl rfl

/-- A row with only `id` set, for concrete sorting runs. -/
def rowA : TodoProps := { id := some 1 }

/-- A second row with only `id` set. -/
def rowB : TodoProps := { id := some 2 }

/-- Claim C4 counterexample: with `orderBy = "ASC"` — a value that is not
exactly `"desc"`, so the claim's first clause promises ascending order —
`Todo.readAll` returns the rows in descending id order, because
`getOrderBy` compares case-sensitively against `"asc"` and everything else
falls to `DESC`. -/
theorem c4_counterexample :
    ("ASC" : String) ≠ "desc" ∧
    Todo.readAll [rowA, rowB] none "id" "ASC" = [rowB, rowA] ∧
    ¬ List.Sorted (colRelAsc .id) [rowB, rowA] := by
  refine ⟨by decide, by decide, ?_⟩
  simp [List.Sorted, List.pairwise_cons, colRelAsc, colLe, rowA, rowB, optNatLe]

/-- Claim C4 (amended): for every call to `Todo.readAll` with truthy
`sortBy` and `orderBy`, the returned sequence is ordered ascending on the
resolved sort column exactly when `orderBy` is exactly `"asc"`
(case-sensitive), and descending for every other value of `orderBy`. -/
theorem c4_readAll_direction (db : List TodoProps) (filt : Option String)
    (sortBy orderBy : String) (hsb : sortBy ≠ "") (hob : orderBy ≠ "") :
    (orderBy = "asc" →
      List.Sorted (colRelAsc (getSortBy sortBy))
        (Todo.readAll db filt sortBy orderBy)) ∧
    (orderBy ≠ "asc" →
      List.Sorted (colRelDesc (getSortBy sortBy))
        (Todo.readAll db filt sortBy orderBy)) := by
  constructor
  · intro h
    simp only [Todo.readAll, if_neg hsb, if_neg hob, getOrderBy, if_pos h]
    exact List.sorted_insertionSort ..
  · intro h
    simp only [Todo.readAll, if_neg hsb, if_neg hob, getOrderBy, if_neg h]
    exact List.sorted_insertionSort ..

/-- Witness for the amended C4 at concrete inputs. -/
theorem c4_readAll_direction_witness :
    (("desc" : String) = "asc" →
      List.Sorted (colRelAsc (getSortBy "id"))
        (Todo.readAll [rowA, rowB] none "id" "desc")) ∧
    (("desc" : String) ≠ "asc" →
      List.Sorted (colRelDesc (getSortBy "id"))
        (Todo.readAll [rowA, rowB] none "id" "desc")) :=
  c4_readAll_direction [rowA, rowB] none "id" "desc" (by decide) (by decide)

/-- Claim C5: in `getTodoList` the validations run in the order status
filter, sortBy, orderBy; the first failing check short-circuits with a 400
and its own message and no storage call is made — in particular
`GET /todos?status=bogus` yields a 400 with no call to `Todo.readAll`. -/
theorem c5_validation_short_circuit (sq bq oq : Option String)
    (o : Except String (List TodoProps)) :
    (statusFilterInvalid sq = true →
      getTodoList sq bq oq o =
        [.sent { statusCode := 400, message := "Invalid filter parameter." }]) ∧
    (statusFilterInvalid sq = false → sortByInvalid bq = true →
      getTodoList sq bq oq o =
        [.sent { statusCode := 400, message := "Invalid sortBy parameter." }]) ∧
    (statusFilterInvalid sq = false → sortByInvalid bq = false →
      orderByInvalid oq = true →
      getTodoList sq bq oq o =
        [.sent { statusCode := 400, message := "Invalid orderBy parameter." }]) ∧
    getTodoList (some "bogus") bq oq o =
      [.sent { statusCode := 400, message := "Invalid filter parameter." }] := by
  have hbogus : statusFilterInvalid (some "bogus") = true := by decide
  refine ⟨fun h₁ => ?_, fun h₁ h₂ => ?_, fun h₁ h₂ h₃ => ?_, ?_⟩ <;>
    simp [getTodoList, *]

/-- Witness for C5: each of the three guards fires at a concrete input. -/
theorem c5_validation_short_circuit_witness :
    getTodoList (some "bogus") none none (.ok []) =
      [.sent { statusCode := 400, message := "Invalid filter parameter." }] ∧
    getTodoList none (some "nope") none (.ok []) =
      [.sent { statusCode := 400, message := "Invalid sortBy parameter." }] ∧
    getTodoList none none (some "upward") (.ok []) =
      [.sent { statusCode := 400, message := "Invalid orderBy parameter." }] :=
  ⟨(c5_validation_short_circuit (some "bogus") none none (.ok [])).1 (by decide),
   (c5_validation_short_circuit none (some "nope") none (.ok [])).2.1
     (by decide) (by decide),
   (c5_validation_short_circuit none none (some "upward") (.ok [])).2.2.1
     (by decide) (by decide) (by decide)⟩

/-- Claim C6: `Todo.delete` returns true exactly when the affected-row
count equals 1, and `deleteTodo` maps a true return to a 200 carrying the
todo's props and a false return to a 500 with an error message. -/
theorem c6_delete_row_count (n count : Nat) (t : TodoProps) :
    (Todo.delete count = true ↔ count = 1) ∧
    deleteTodo (some n) (.ok (some t)) (.ok count) =
      (if Todo.delete count then
        [.dbRead, .dbDelete,
         .sent { statusCode := 200, message := "Todo deleted successfully!",
                 payload := some (.todo t) }]
      else
        [.dbRead, .dbDelete,
         .sent { statusCode := 500, message := "Error while deleting todo." }]) := by
  exact ⟨by simp [Todo.delete], rfl⟩

/-- Claim C7: for every creation input handled by `createTodo`, the entity
returned by `Todo.create` has status `"incomplete"`, `completedAt` unset,
and `createdAt` equal to the time stamped at creation; in general
`Todo.create` keeps a provided `createdAt` and defaults an absent one to
the current time. -/
theorem c7_create_entity_defaults (body : RequestBody) (now aid : Nat)
    (p : TodoProps) :
    (createdTodo body now aid).status = "incomplete" ∧
    (createdTodo body now aid).completedAt = none ∧
    (createdTodo body now aid).createdAt = some now ∧
    (Todo.create p now aid).createdAt = some (p.createdAt.getD now) ∧
    createTodo body now (.ok ()) aid =
      [.dbInsert,
       .sent { statusCode := 201, message := "Todo created successfully!",
               payload := some (.todo (createdTodo body now aid)) }] :=
  ⟨rfl, rfl, rfl, rfl, rfl⟩

/-- Claim C8: `Todo.markComplete` is the stated composition with
`Todo.update`, and it always sets `status` to `"complete"`, `completedAt`
to a non-null current timestamp, and (through `update`) stamps `editedAt`. -/
theorem c8_markComplete_sets_fields (p : TodoProps) (now : Nat) :
    Todo.markComplete p now =
      Todo.update p { status := some "complete", completedAt := some now } now ∧
    (Todo.markComplete p now).status = "complete" ∧
    (Todo.markComplete p now).completedAt = some now ∧
    (Todo.markComplete p now).editedAt = some now :=
  ⟨rfl, rfl, rfl, rfl⟩

/-- Claim C10: `createTodo` validates nothing — every request body,
including one missing `title` and `description` (on which the never-invoked
`isValidTodoProps` guard would return false), goes straight to the insert,
and the response is always a single 201 or a single 500, never a 400. -/
theorem c10_create_no_validation (body : RequestBody) (now aid : Nat)
    (o : Except String Unit) :
    (sentCodes (createTodo body now o aid) = [201] ∨
     sentCodes (createTodo body now o aid) = [500]) ∧
    sentCodes (createTodo body now o aid) ≠ [400] ∧
    isValidTodoProps {} = false := by
  cases o with
  | error e => exact ⟨.inr rfl, by simp [createTodo, sentCodes], rfl⟩
  | ok u => exact ⟨.inl rfl, by simp [createTodo, sentCodes], rfl⟩

/-! ## Round-trip of the case converter -/

theorem lowerCharFacts (c : Char) (h : isLowerChar c = true) :
    isUpperChar c = false ∧ c ≠ '_' ∧
    isUpperChar (toUpperChar c) = true ∧
    toLowerChar (toUpperChar c) = c := by
  have hb : 97 ≤ c.toNat ∧ c.toNat ≤ 122 := by
    simpa [isLowerChar] using h
  have key : ∀ n, n < 123 → 97 ≤ n →
      (isUpperChar (Char.ofNat n) = false ∧ Char.ofNat n ≠ '_' ∧
       isUpperChar (toUpperChar (Char.ofNat n)) = true ∧
       toLowerChar (toUpperChar (Char.ofNat n)) = Char.ofNat n) := by decide
  have hk := key c.toNat (by omega) hb.1
  rwa [Char.ofNat_toNat] at hk

theorem cts_lower_cons (c : Char) (h : isLowerChar c = true) (cs : List Char) :
    camelToSnakeChars (c :: cs) = c :: camelToSnakeChars cs := by
  simp [camelToSnakeChars, (lowerCharFacts c h).1]

theorem cts_append_lower (l m : List Char) (h : ∀ c ∈ l, isLowerChar c = true) :
    camelToSnakeChars (l ++ m) = l ++ camelToSnakeChars m := by
  induction l with
  | nil => rfl
  | cons c l ih =>
    rw [List.cons_append, cts_lower_cons c (h c (by simp)),
      ih fun d hd => h d (by simp [hd])]
    rfl

theorem stc_lower_cons (c : Char) (h : isLowerChar c = true) (cs : List Char) :
    snakeToCamelChars (c :: cs) = c :: snakeToCamelChars cs := by
  rw [snakeToCamelChars.eq_def]
  simp [(lowerCharFacts c h).2.1]

theorem stc_append_lower (l m : List Char) (h : ∀ c ∈ l, isLowerChar c = true) :
    snakeToCamelChars (l ++ m) = l ++ snakeToCamelChars m := by
  induction l with
  | nil => rfl
  | cons c l ih =>
    rw [List.cons_append, stc_lower_cons c (h c (by simp)),
      ih fun d hd => h d (by simp [hd])]
    rfl

theorem cts_camelTail (ws : List (List Char)) (h : ∀ w ∈ ws, WordOK w) :
    camelToSnakeChars (camelTail ws) = snakeTail ws := by
  induction ws with
  | nil => rfl
  | cons w ws ih =>
    obtain ⟨hne, hlow⟩ := h w (by simp)
    match w, hne with
    | c :: t, _ =>
      have hc : isLowerChar c = true := hlow c (by simp)
      have hup : isUpperChar (toUpperChar c) = true := (lowerCharFacts c hc).2.2.1
      have hlo : toLowerChar (toUpperChar c) = c := (lowerCharFacts c hc).2.2.2
      simp only [camelTail, capitalizeWord, List.cons_append, snakeTail]
      rw [show camelToSnakeChars (toUpperChar c :: (t ++ camelTail ws)) =
            '_' :: toLowerChar (toUpperChar c) :: camelToSnakeChars (t ++ camelTail ws)
          from by simp [camelToSnakeChars, hup]]
      rw [hlo, cts_append_lower t _ fun d hd => hlow d (by simp [hd]),
        ih fun w' hw' => h w' (by simp [hw'])]

theorem cts_camelKey (ws : List (List Char)) (h : ∀ w ∈ ws, WordOK w) :
    camelToSnakeChars (camelKey ws) = snakeKey ws := by
  cases ws with
  | nil => rfl
  | cons w ws =>
    obtain ⟨hne, hlow⟩ := h w (by simp)
    simp only [camelKey, snakeKey]
    rw [cts_append_lower w _ hlow, cts_camelTail ws fun w' hw' => h w' (by simp [hw'])]

theorem stc_snakeTail (ws : List (List Char)) (h : ∀ w ∈ ws, WordOK w) :
    snakeToCamelChars (snakeTail ws) = camelTail ws := by
  induction ws with
  | nil => rfl
  | cons w ws ih =>
    obtain ⟨hne, hlow⟩ := h w (by simp)
    match w, hne with
    | c :: t, _ =>
      simp only [snakeTail, List.cons_append, camelTail, capitalizeWord]
      rw [show snakeToCamelChars ('_' :: c :: (t ++ snakeTail ws)) =
            toUpperChar c :: snakeToCamelChars (t ++ snakeTail ws)
          from by simp [snakeToCamelChars]]
      rw [stc_append_lower t _ fun d hd => hlow d (by simp [hd]),
        ih fun w' hw' => h w' (by simp [hw'])]

theorem stc_snakeKey (ws : List (List Char)) (h : ∀ w ∈ ws, WordOK w) :
    snakeToCamelChars (snakeKey ws) = camelKey ws := by
  cases ws with
  | nil => rfl
  | cons w ws =>
    obtain ⟨hne, hlow⟩ := h w (by simp)
    simp only [camelKey, snakeKey]
    rw [stc_append_lower w _ hlow, stc_snakeTail ws fun w' hw' => h w' (by simp [hw'])]

theorem camel_roundtrip_key (s : String) (h : CamelKeyOK s) :
    snakeToCamel (camelToSnake s) = s := by
  obtain ⟨ws, hws, hdata⟩ := h
  cases s with
  | mk data =>
    show String.mk (snakeToCamelChars (camelToSnakeChars data)) = String.mk data
    rw [show data = camelKey ws from hdata, cts_camelKey ws hws, stc_snakeKey ws hws]

theorem snake_roundtrip_key (s : String) (h : SnakeKeyOK s) :
    camelToSnake (snakeToCamel s) = s := by
  obtain ⟨ws, hws, hdata⟩ := h
  cases s with
  | mk data =>
    show String.mk (camelToSnakeChars (snakeToCamelChars data)) = String.mk data
    rw [show data = snakeKey ws from hdata, stc_snakeKey ws hws, cts_camelKey ws hws]

theorem map_key_id (F : String → String) (m : List (String × String))
    (h : ∀ kv ∈ m, F kv.1 = kv.1) :
    m.map (fun kv => (F kv.1, kv.2)) = m := by
  induction m with
  | nil => rfl
  | cons kv m ih =>
    have hk := h kv (by simp)
    cases kv with
    | mk k v =>
      simp only [List.map_cons] at *
      rw [hk, ih fun kv' h' => h kv' (by simp [h'])]

/-- Claim C9: on any mapping whose keys are compound camelCase words of
lowercase ASCII words, `convertToCase camelToSnake` followed by
`convertToCase snakeToCamel` is the identity, and symmetrically for
snake_case keys — the two key transforms are mutually inverse, values
untouched. -/
theorem c9_convertToCase_roundtrip (m₁ m₂ : List (String × String))
    (h₁ : ∀ kv ∈ m₁, CamelKeyOK kv.1) (h₂ : ∀ kv ∈ m₂, SnakeKeyOK kv.1) :
    convertToCase snakeToCamel (convertToCase camelToSnake m₁) = m₁ ∧
    convertToCase camelToSnake (convertToCase snakeToCamel m₂) = m₂ := by
  constructor
  · simp only [convertToCase, List.map_map, Function.comp_def]
    exact map_key_id (fun k => snakeToCamel (camelToSnake k)) m₁
      fun kv hkv => camel_roundtrip_key kv.1 (h₁ kv hkv)
  · simp only [convertToCase, List.map_map, Function.comp_def]
    exact map_key_id (fun k => camelToSnake (snakeToCamel k)) m₂
      fun kv hkv => snake_roundtrip_key kv.1 (h₂ kv hkv)

/-- Witness for C9 on the concrete keys `dueAt` and `due_at`. -/
theorem c9_convertToCase_roundtrip_witness :
    convertToCase snakeToCamel (convertToCase camelToSnake [("dueAt", "v")]) =
      [("dueAt", "v")] ∧
    convertToCase camelToSnake (convertToCase snakeToCamel [("due_at", "v")]) =
      [("due_at", "v")] :=
  c9_convertToCase_roundtrip [("dueAt", "v")] [("due_at", "v")]
    (by
      intro kv hkv
      simp only [List.mem_singleton] at hkv
      subst hkv
      exact ⟨[['d', 'u', 'e'], ['a', 't']], by decide, by decide⟩)
    (by
      intro kv hkv
      simp only [List.mem_singleton] at hkv
      subst hkv
      exact ⟨[['d', 'u', 'e'], ['a', 't']], by decide, by decide⟩)
